import Mathlib

/-!
Shallow embedding of the admin package's registration and rendering core
(main.go): declarative-tag parsing, field-variant selection, model
registration, model projections, and form rendering, together with the
theorems that settle the specification claims about them.
-/

namespace GoAdmin

/-- Go reflect kinds as an explicit enumeration (reflect.Kind), covering the
kinds the registration switch distinguishes plus the ones its default branch
absorbs. -/
inductive Kind where
  | bool | int | int8 | int16 | int32 | int64
  | uint | uint8 | uint16 | uint32 | uint64 | uintptr
  | float32 | float64 | complex64 | complex128
  | array | chan | func | interface_ | map_ | ptr | slice | string | struct_
  deriving DecidableEq

/-- One struct attribute as reflection sees it: its name, its kind, and the
value of its admin struct tag. -/
structure StructField where
  name : String
  kind : Kind
  tag : String
  deriving DecidableEq

/-- The five concrete Field variants of the package (TextField, URLField,
IntField, FloatField, TimeField), modelled as a closed enumeration. -/
inductive FieldVariant where
  | text | url | int | float | time
  deriving DecidableEq

/-- A Field value as RegisterModel leaves it: the chosen concrete variant
plus the shared BaseField attributes that RegisterModel sets (internal name,
display label, storage column name, list-view flag). -/
structure Field where
  variant : FieldVariant
  name : String
  label : String
  columnName : String
  list : Bool
  deriving DecidableEq

/-- A registered record type as reflection exposes it to RegisterModel: the
printed type string of reflect.TypeOf, the struct attributes in declaration
order, and the AdminName result when the type implements namedModel. -/
structure GoType where
  typeString : String
  fields : List StructField
  adminName : Option String
  deriving DecidableEq

/-- The model record built by RegisterModel. The instance field of the Go
struct is an opaque reflection anchor, never read by the modelled code, and
is omitted. -/
structure model where
  Name : String
  Slug : String
  fields : List Field
  tableName : String
  deriving DecidableEq

/-- A modelGroup. Its non-owning back-reference to the Admin is passed to
RegisterModel explicitly instead of being stored. -/
structure modelGroup where
  Name : String
  slug : String
  Models : List model
  deriving DecidableEq

/-- The Admin registry. Router, database handle, session store and URL path
are external collaborators and are not modelled; models is none before Setup
runs (a nil Go map) and some association list afterwards. -/
structure Admin where
  Title : String
  Username : String
  Password : String
  NameTransform : Option (String → String)
  models : Option (List (String × model))
  modelGroups : List modelGroup

/-- Splits a character list at every occurrence of sep, the list analogue of
Go strings.Split with a one-character separator; acc holds the current
segment reversed. -/
def splitChar (sep : Char) : List Char → List Char → List (List Char)
  | [], acc => [acc.reverse]
  | c :: cs, acc =>
    if c = sep then acc.reverse :: splitChar sep cs []
    else splitChar sep cs (c :: acc)

/-- String front end of splitChar. -/
def splitOnChar (s : String) (sep : Char) : List String :=
  (splitChar sep s.data []).map fun cs => String.mk cs

/-- Unqualified type name: RegisterModel splits the printed type string on
dots and keeps the last part. -/
def unqualifiedName (ts : String) : String :=
  (splitOnChar ts '.').getLastD ""

/-- Modelled from the spec: URL-slug generation (slug.SlugAscii) is an
external collaborator specified only as lossy, deterministic,
lowercase-hyphenated ASCII slugification; modelled as lowercasing every
character and replacing spaces with hyphens. -/
def slugAscii (s : String) : String :=
  String.mk (s.data.map fun c => if c = ' ' then '-' else c.toLower)

/-- Modelled from the spec: one token of the declarative tag grammar is
either a bare key (a present marker carrying the empty value) or key=value;
any other shape is a malformed-tag failure. The tag parser (parseTag) is
repository code that is not under src. -/
def parseToken (tok : String) : Except String (String × String) :=
  match splitOnChar tok '=' with
  | [k] => Except.ok (k, "")
  | [k, v] => Except.ok (k, v)
  | _ => Except.error "malformed tag"

/-- Parses every comma-separated token of a tag, failing on the first
malformed one. -/
def parseTokens : List String → Except String (List (String × String))
  | [] => Except.ok []
  | tok :: rest =>
    match parseToken tok with
    | Except.error e => Except.error e
    | Except.ok kv =>
      match parseTokens rest with
      | Except.error e => Except.error e
      | Except.ok kvs => Except.ok (kv :: kvs)

/-- Modelled from the spec: parseTag turns one declarative tag string into a
key-to-value mapping, tolerating the empty tag. -/
def parseTag (tag : String) : Except String (List (String × String)) :=
  if tag = "" then Except.ok []
  else parseTokens (splitOnChar tag ',')

/-- Variant selection of RegisterModel: an explicit Field override in the
tag map wins (url selects the URL variant, anything else the text variant);
otherwise the reflect kind decides, with an express fallback to the text
variant for every unmatched kind. -/
def selectField (tagMap : List (String × String)) (kind : Kind) : FieldVariant :=
  match tagMap.lookup "Field" with
  | some ft =>
    match ft with
    | "url" => FieldVariant.url
    | _ => FieldVariant.text
  | none =>
    match kind with
    | Kind.string => FieldVariant.text
    | Kind.int | Kind.int16 | Kind.int32 | Kind.int64
    | Kind.uint | Kind.uint16 | Kind.uint32 | Kind.uint64 => FieldVariant.int
    | Kind.float32 | Kind.float64 => FieldVariant.float
    | Kind.struct_ => FieldVariant.time
    | _ => FieldVariant.text

/-- Builds the Field for one non-skipped attribute, mirroring the loop body
of RegisterModel: parse the tag (a parse failure models the Go panic),
append Id to pointer attribute names, derive the column name (the
transform-less branch uses the raw attribute name, not the Id-suffixed
one), select the variant, then set label, column name and list flag. The
variant-specific Configure step is repository code not under src; per the
spec it only applies variant-internal settings, so it is modelled as
leaving the shared attributes unchanged. -/
def mkField (nt : Option (String → String)) (f : StructField) : Except String Field :=
  match parseTag f.tag with
  | Except.error e => Except.error e
  | Except.ok tagMap =>
    let fieldName := if f.kind = Kind.ptr then f.name ++ "Id" else f.name
    let tableField :=
      match nt with
      | some tr => tr fieldName
      | none => f.name
    let variant := selectField tagMap f.kind
    let label :=
      match tagMap.lookup "label" with
      | some l => l
      | none => fieldName
    Except.ok
      { variant := variant, name := fieldName, label := label,
        columnName := tableField, list := (tagMap.lookup "list").isSome }

/-- The attribute loop of RegisterModel: a tag of exactly the skip sentinel
skips the attribute entirely, otherwise its Field is appended in order; the
first failure aborts the whole registration. -/
def buildFields (nt : Option (String → String)) : List StructField → Except String (List Field)
  | [] => Except.ok []
  | f :: rest =>
    if f.tag = "-" then buildFields nt rest
    else
      match mkField nt f with
      | Except.error e => Except.error e
      | Except.ok fld =>
        match buildFields nt rest with
        | Except.error e => Except.error e
        | Except.ok flds => Except.ok (fld :: flds)

/-- The model construction of RegisterModel: the display name defaults to
the unqualified type name; the table name is derived (and transformed) from
that type-derived name before the AdminName override replaces the display
name; the slug comes from the final display name. -/
def mkModel (nt : Option (String → String)) (t : GoType) : Except String model :=
  let name0 := unqualifiedName t.typeString
  let tableName :=
    match nt with
    | some tr => tr name0
    | none => name0
  let name :=
    match t.adminName with
    | some s => s
    | none => name0
  match buildFields nt t.fields with
  | Except.error e => Except.error e
  | Except.ok flds =>
    Except.ok { Name := name, Slug := slugAscii name, fields := flds, tableName := tableName }

/-- Go map insertion on the slug-keyed model map: overwrites the entry when
the key is already present. -/
def mapInsert : List (String × model) → String → model → List (String × model)
  | [], k, v => [(k, v)]
  | (k', v') :: rest, k, v =>
    if k' = k then (k, v) :: rest else (k', v') :: mapInsert rest k v

/-- Go map lookup on the slug-keyed model map. -/
def mapLookup : List (String × model) → String → Option model
  | [], _ => none
  | (k', v') :: rest, k => if k' = k then some v' else mapLookup rest k

/-- Setup: defaults the title, rejects missing credentials, and initializes
the model map and the group list (database opening, session store and route
registration are external collaborators). -/
def Setup (admin : Admin) : Except String Admin :=
  let admin' := if admin.Title.length == 0 then { admin with Title := "Admin" } else admin
  if admin'.Username.length == 0 || admin'.Password.length == 0 then
    Except.error "Username and/or password is missing"
  else
    Except.ok { admin' with models := some [], modelGroups := [] }

/-- Group: fails while the model map is still nil, otherwise builds the
group, appends it to the registry and returns it. The first component is
the registry state after the call, so the error branch returning the
receiver unchanged models the Go method touching nothing. -/
def Admin.Group (a : Admin) (name : String) : Admin × Except String modelGroup :=
  match a.models with
  | none => (a, Except.error "Must call .Serve() before adding groups and registering models")
  | some _ =>
    let group : modelGroup := { Name := name, slug := slugAscii name, Models := [] }
    ({ a with modelGroups := a.modelGroups ++ [group] }, Except.ok group)

/-- RegisterModel on a group: builds the model, stores it in the registry's
slug map (overwriting on collision) and appends it to the group. The Go
method reaches the registry through the group's back-reference; here the
Admin is passed and returned explicitly. A tag-parse failure models the Go
panic, as does writing to a still-nil model map. -/
def RegisterModel (a : Admin) (g : modelGroup) (t : GoType) :
    Except String (Admin × modelGroup) :=
  match mkModel a.NameTransform t with
  | Except.error e => Except.error e
  | Except.ok m =>
    match a.models with
    | none => Except.error "assignment to entry in nil map"
    | some ms =>
      Except.ok
        ({ a with models := some (mapInsert ms m.Slug m) },
         { g with Models := g.Models ++ [m] })

/-- fieldNames loop: the internal names of the fields, in order. -/
def namesAux : List Field → List String
  | [] => []
  | f :: rest => f.name :: namesAux rest

/-- fieldNames on a model. -/
def model.fieldNames (m : model) : List String := namesAux m.fields

/-- tableColumns loop: every storage column name, in order. -/
def tableColsAux : List Field → List String
  | [] => []
  | f :: rest => f.columnName :: tableColsAux rest

/-- tableColumns on a model. -/
def model.tableColumns (m : model) : List String := tableColsAux m.fields

/-- listColumns loop: labels of the list-visible fields, in field order. -/
def listColsAux : List Field → List String
  | [] => []
  | f :: rest => if f.list then f.label :: listColsAux rest else listColsAux rest

/-- listColumns on a model. -/
def model.listColumns (m : model) : List String := listColsAux m.fields

/-- listTableColumns loop: storage columns of the list-visible fields, in
field order. -/
def listTableColsAux : List Field → List String
  | [] => []
  | f :: rest => if f.list then f.columnName :: listTableColsAux rest else listTableColsAux rest

/-- listTableColumns on a model. -/
def model.listTableColumns (m : model) : List String := listTableColsAux m.fields

/-- fieldByName loop: the first field whose internal name matches, none when
absent. -/
def fieldByNameAux (name : String) : List Field → Option Field
  | [] => none
  | f :: rest => if f.name = name then some f else fieldByNameAux name rest

/-- fieldByName on a model. -/
def model.fieldByName (m : model) (name : String) : Option Field :=
  fieldByNameAux name m.fields

/-- One field rendering: Field.Render writes to an io.Writer; its output is
modelled as the field together with the value and the error string it was
handed (a nil interface value is none). -/
structure Rendered (α : Type) where
  field : Field
  value : Option α
  error : String
  deriving DecidableEq

/-- The per-iteration value read of renderForm: data at index i when
hasData, else the loop variable keeps its nil zero value; an out-of-range
read is a Go panic, returned as none. -/
def lookupVal {α : Type} (hasData : Bool) (data : List α) (i : Nat) : Option (Option α) :=
  cond hasData ((data[i]?).map some) (some none)

/-- The per-iteration error read of renderForm: the zero value for a nil
error slice, else errors at index i; an out-of-range read is a Go panic,
returned as none. -/
def lookupErr (errs : Option (List String)) (i : Nat) : Option String :=
  match errs with
  | none => some ""
  | some es => es[i]?

/-- The renderForm loop over the field names, indexed from i; any Go panic
(out-of-range slice read, rendering through a nil field) yields none. -/
def renderFormAux {α : Type} (hasData : Bool) (data : List α)
    (errs : Option (List String)) (flds : List Field) :
    Nat → List String → Option (List (Rendered α))
  | _, [] => some []
  | i, fname :: rest =>
    match lookupVal hasData data i with
    | none => none
    | some val =>
      match lookupErr errs i with
      | none => none
      | some err =>
        match fieldByNameAux fname flds with
        | none => none
        | some fld =>
          match renderFormAux hasData data errs flds (i + 1) rest with
          | none => none
          | some r => some ({ field := fld, value := val, error := err } :: r)

/-- renderForm: compares the value count against the field count once, then
renders every field by name, passing the positionally matching value and
error. -/
def model.renderForm {α : Type} (m : model) (data : List α)
    (errs : Option (List String)) : Option (List (Rendered α)) :=
  renderFormAux (data.length == (m.fieldNames).length) data errs m.fields 0 m.fieldNames

/-- Variant mapping exactly as the amended claim words it: string kinds go
to the text variant, integer kinds other than the 8-bit ones to the integer
variant, floating kinds to the float variant, struct-shaped kinds to the
time variant, and everything else (the 8-bit integers included) falls back
to the text variant. -/
def specVariant : Kind → FieldVariant
  | Kind.string => FieldVariant.text
  | Kind.int | Kind.int16 | Kind.int32 | Kind.int64
  | Kind.uint | Kind.uint16 | Kind.uint32 | Kind.uint64 => FieldVariant.int
  | Kind.float32 | Kind.float64 => FieldVariant.float
  | Kind.struct_ => FieldVariant.time
  | _ => FieldVariant.text

/-- One Field per attribute, in declaration order, as the claim words the
field sequence: applied to the non-skipped attributes it is the claimed
shape of the model's field list. -/
def specOrderedFields (nt : Option (String → String)) :
    List StructField → Except String (List Field)
  | [] => Except.ok []
  | f :: rest =>
    match mkField nt f with
    | Except.error e => Except.error e
    | Except.ok fld =>
      match specOrderedFields nt rest with
      | Except.error e => Except.error e
      | Except.ok flds => Except.ok (fld :: flds)

/-- The display name RegisterModel ends up with: the AdminName result when
the type implements namedModel, else the unqualified type name. -/
def displayNameOf (t : GoType) : String :=
  match t.adminName with
  | some s => s
  | none => unqualifiedName t.typeString

/-- The name-transform applied when configured, the name verbatim
otherwise. -/
def transformOr (nt : Option (String → String)) (s : String) : String :=
  match nt with
  | some tr => tr s
  | none => s

/-! Helper lemmas shared by the claim theorems. -/

/-- Skipping an attribute inside the loop changes nothing: buildFields on a
list containing a skip-tagged attribute equals buildFields on the list with
that attribute removed. -/
theorem buildFields_skip (nt : Option (String → String)) (f : StructField)
    (hf : f.tag = "-") (pre post : List StructField) :
    buildFields nt (pre ++ f :: post) = buildFields nt (pre ++ post) := by
  induction pre with
  | nil => simp [buildFields, hf]
  | cons p pre ih => simp only [List.cons_append, buildFields, List.append_eq, ih]

/-- mkModel is invariant under removing a skip-tagged attribute. -/
theorem mkModel_skip (nt : Option (String → String)) (ts : String)
    (an : Option String) (pre post : List StructField) (f : StructField)
    (hf : f.tag = "-") :
    mkModel nt ⟨ts, pre ++ f :: post, an⟩ = mkModel nt ⟨ts, pre ++ post, an⟩ := by
  unfold mkModel
  rw [buildFields_skip nt f hf pre post]

/-- Shape of a successfully built model: its display name, slug and table
name in terms of the registered type and the transform. -/
theorem mkModel_ok_shape (nt : Option (String → String)) (t : GoType) (m : model)
    (h : mkModel nt t = Except.ok m) :
    m.Name = displayNameOf t ∧
    m.tableName = transformOr nt (unqualifiedName t.typeString) := by
  cases hbf : buildFields nt t.fields with
  | error e => simp [mkModel, hbf] at h
  | ok flds =>
    simp only [mkModel, hbf, Except.ok.injEq] at h
    subst h
    exact ⟨rfl, rfl⟩

/-- Inserting under a key and looking the key up yields the inserted value:
the Go map's last-write-wins semantics. -/
theorem mapLookup_mapInsert (ms : List (String × model)) (k : String) (v : model) :
    mapLookup (mapInsert ms k v) k = some v := by
  induction ms with
  | nil => simp [mapInsert, mapLookup]
  | cons p rest ih =>
    obtain ⟨k', v'⟩ := p
    by_cases h : k' = k
    · simp [mapInsert, mapLookup, h]
    · simp [mapInsert, mapLookup, h, ih]

/-- Every name produced by the fieldNames loop is found again by the
fieldByName loop. -/
theorem fieldByNameAux_isSome_of_mem (flds : List Field) (n : String)
    (h : n ∈ namesAux flds) : (fieldByNameAux n flds).isSome = true := by
  induction flds with
  | nil => cases h
  | cons f rest ih =>
    by_cases hf : f.name = n
    · simp [fieldByNameAux, hf]
    · simp only [namesAux] at h
      rcases List.mem_cons.mp h with heq | hmem
      · exact absurd heq.symm hf
      · simp [fieldByNameAux, hf, ih hmem]

/-- The listColumns loop is the list-visible filter followed by the label
projection. -/
theorem listColsAux_eq (fs : List Field) :
    listColsAux fs = (fs.filter fun f => f.list).map fun f => f.label := by
  induction fs with
  | nil => rfl
  | cons f rest ih => by_cases h : f.list <;> simp [listColsAux, h, ih]

/-- The listTableColumns loop is the same filter followed by the column
projection. -/
theorem listTableColsAux_eq (fs : List Field) :
    listTableColsAux fs = (fs.filter fun f => f.list).map fun f => f.columnName := by
  induction fs with
  | nil => rfl
  | cons f rest ih => by_cases h : f.list <;> simp [listTableColsAux, h, ih]

/-- With hasData false the render loop succeeds whenever every name is
findable and the error slice (when non-nil) covers every remaining index,
and every rendered field carries no value. -/
theorem renderFormAux_no_data {α : Type} (data : List α) (errs : Option (List String))
    (flds : List Field) (names : List String) :
    ∀ i : Nat,
    (∀ n ∈ names, (fieldByNameAux n flds).isSome = true) →
    (errs = none ∨ ∃ l, errs = some l ∧ i + names.length ≤ l.length) →
    ∃ r, renderFormAux false data errs flds i names = some r ∧
      r.length = names.length ∧ ∀ x ∈ r, x.value = none := by
  induction names with
  | nil =>
    intro i _ _
    exact ⟨[], rfl, rfl, by intro x hx; cases hx⟩
  | cons n rest ih =>
    intro i hfound herr
    have hn := hfound n (List.mem_cons_self n rest)
    rw [Option.isSome_iff_exists] at hn
    obtain ⟨fld, hfld⟩ := hn
    have herrv : ∃ e, lookupErr errs i = some e := by
      rcases herr with h | ⟨l, hl, hle⟩
      · exact ⟨"", by rw [h]; rfl⟩
      · have hi : i < l.length := by
          simp only [List.length_cons] at hle
          omega
        exact ⟨l[i], by rw [hl]; simp [lookupErr, List.getElem?_eq_getElem hi]⟩
    obtain ⟨e, he⟩ := herrv
    have herr' : errs = none ∨ ∃ l, errs = some l ∧ (i + 1) + rest.length ≤ l.length := by
      rcases herr with h | ⟨l, hl, hle⟩
      · exact Or.inl h
      · refine Or.inr ⟨l, hl, ?_⟩
        simp only [List.length_cons] at hle
        omega
    obtain ⟨r, hr, hrl, hrv⟩ := ih (i + 1)
      (fun x hx => hfound x (List.mem_cons_of_mem n hx)) herr'
    refine ⟨{ field := fld, value := none, error := e } :: r, ?_, ?_, ?_⟩
    · simp only [renderFormAux, show lookupVal false data i = some none from rfl,
        he, hfld, hr]
    · simp [hrl]
    · intro x hx
      rcases List.mem_cons.mp hx with heq | hx
      · rw [heq]
      · exact hrv x hx

/-! Claim theorems. -/

/-- C1 counterexample: a type whose AdminName is "Articles" registers with
display name "Articles" but table name "Post" (the unqualified type name),
so the table name is not the transform-or-verbatim image of the display
name that the claim asserts. -/
theorem tableName_ignores_adminName_cex :
    (RegisterModel ⟨"t", "u", "p", none, some [], []⟩ ⟨"g", "g", []⟩
        ⟨"*main.Post", [], some "Articles"⟩).map
      (fun p => (p.2.Models.map model.Name, p.2.Models.map model.tableName)) =
      Except.ok (["Articles"], ["Post"]) ∧ ("Articles" : String) ≠ "Post" :=
  ⟨rfl, by decide⟩

/-- C1 (amended): the registered model's display name is the unqualified
type name unless the type implements AdminName, whose result takes
precedence; the table name is the name-transform applied (when configured,
else verbatim) to the type-derived name, i.e. the unqualified type name
before the AdminName override, not to the final display name. -/
theorem register_model_display_and_table_name (a : Admin) (g : modelGroup)
    (t : GoType) (a' : Admin) (g' : modelGroup)
    (h : RegisterModel a g t = Except.ok (a', g')) :
    ∃ m : model,
      g'.Models = g.Models ++ [m] ∧
      m.Name = displayNameOf t ∧
      m.tableName = transformOr a.NameTransform (unqualifiedName t.typeString) := by
  cases hmk : mkModel a.NameTransform t with
  | error e => simp [RegisterModel, hmk] at h
  | ok m =>
    cases hms : a.models with
    | none => simp [RegisterModel, hmk, hms] at h
    | some ms =>
      simp only [RegisterModel, hmk, hms, Except.ok.injEq, Prod.mk.injEq] at h
      obtain ⟨ha, hg⟩ := h
      obtain ⟨hname, htable⟩ := mkModel_ok_shape a.NameTransform t m hmk
      exact ⟨m, by rw [← hg], hname, htable⟩

/-- C1 witness: at a concrete self-naming type the amended statement holds
with display name "Articles" and table name "Post". -/
theorem register_model_display_and_table_name_witness :
    ∃ m : model,
      (⟨"g", "g", [⟨"Articles", "articles", [], "Post"⟩]⟩ : modelGroup).Models =
        (⟨"g", "g", []⟩ : modelGroup).Models ++ [m] ∧
      m.Name = "Articles" ∧
      m.tableName = "Post" :=
  register_model_display_and_table_name ⟨"t", "u", "p", none, some [], []⟩
    ⟨"g", "g", []⟩ ⟨"*main.Post", [], some "Articles"⟩
    ⟨"t", "u", "p", none, some [("articles", ⟨"Articles", "articles", [], "Post"⟩)], []⟩
    ⟨"g", "g", [⟨"Articles", "articles", [], "Post"⟩]⟩ rfl

/-- C2: an attribute whose tag is exactly the skip sentinel contributes no
Field at all: registering a type containing it yields exactly the result of
registering the same type without it, so the attribute appears in neither
the field sequence, nor tableColumns or listTableColumns, nor any rendered
output, all of which are functions of the registered model. -/
theorem skip_tag_contributes_no_field (a : Admin) (g : modelGroup)
    (ts : String) (an : Option String) (pre post : List StructField)
    (f : StructField) (hf : f.tag = "-") :
    RegisterModel a g ⟨ts, pre ++ f :: post, an⟩ =
      RegisterModel a g ⟨ts, pre ++ post, an⟩ := by
  unfold RegisterModel
  rw [mkModel_skip a.NameTransform ts an pre post f hf]

/-- C2 witness: a mixed three-attribute type registers identically to its
two-attribute version without the skip-tagged attribute. -/
theorem skip_tag_contributes_no_field_witness :
    RegisterModel ⟨"t", "u", "p", none, some [], []⟩ ⟨"g", "g", []⟩
        ⟨"*main.Post", [⟨"Title", Kind.string, ""⟩, ⟨"Secret", Kind.string, "-"⟩,
          ⟨"Num", Kind.int, ""⟩], none⟩ =
      RegisterModel ⟨"t", "u", "p", none, some [], []⟩ ⟨"g", "g", []⟩
        ⟨"*main.Post", [⟨"Title", Kind.string, ""⟩, ⟨"Num", Kind.int, ""⟩], none⟩ :=
  skip_tag_contributes_no_field ⟨"t", "u", "p", none, some [], []⟩ ⟨"g", "g", []⟩
    "*main.Post" none [⟨"Title", Kind.string, ""⟩] [⟨"Num", Kind.int, ""⟩]
    ⟨"Secret", Kind.string, "-"⟩ rfl

/-- C3 counterexample: the 8-bit integer kind is absent from the integer
case of the registration switch, so with no Field override an int8
attribute selects the text variant, not the integer variant the claim
requires for every integer width. -/
theorem int8_selects_text_cex :
    (mkField none ⟨"Age", Kind.int8, ""⟩).map Field.variant =
      Except.ok FieldVariant.text ∧
    FieldVariant.text ≠ FieldVariant.int :=
  ⟨rfl, by decide⟩

/-- C3 (amended): variant selection is deterministic and total; with no
Field override, string kinds select the text variant, integer kinds other
than the 8-bit ones the integer variant, floating kinds the float variant,
struct-shaped kinds the time variant, and every other kind (the 8-bit
integers included) falls back to the text variant rather than failing. -/
theorem variant_selection_amended (k : Kind) :
    selectField [] k = specVariant k := by
  cases k <;> rfl

/-- C4: a pointer-kinded attribute always yields a Field whose internal
name is the attribute name with the Id suffix, whatever the transform. -/
theorem ptr_field_id_suffix (nt : Option (String → String)) (f : StructField)
    (fld : Field) (hk : f.kind = Kind.ptr)
    (h : mkField nt f = Except.ok fld) : fld.name = f.name ++ "Id" := by
  cases hp : parseTag f.tag with
  | error e => simp [mkField, hp] at h
  | ok tagMap =>
    simp only [mkField, hp, hk, if_pos, Except.ok.injEq] at h
    subst h
    rfl

/-- C4 witness: with a transform configured, the pointer attribute Author
still gets internal name AuthorId. -/
theorem ptr_field_id_suffix_witness :
    mkField (some slugAscii) ⟨"Author", Kind.ptr, ""⟩ =
      Except.ok ⟨FieldVariant.text, "AuthorId", "AuthorId", "authorid", false⟩ ∧
    (⟨FieldVariant.text, "AuthorId", "AuthorId", "authorid", false⟩ : Field).name =
      "Author" ++ "Id" :=
  ⟨rfl, ptr_field_id_suffix (some slugAscii) ⟨"Author", Kind.ptr, ""⟩
    ⟨FieldVariant.text, "AuthorId", "AuthorId", "authorid", false⟩ rfl rfl⟩

/-- C5: with no transform configured, a non-pointer attribute's storage
column name equals its internal field name, which is the attribute's own
name. -/
theorem no_transform_column_eq_field_name (f : StructField) (fld : Field)
    (hk : ¬ f.kind = Kind.ptr) (h : mkField none f = Except.ok fld) :
    fld.columnName = fld.name ∧ fld.name = f.name := by
  cases hp : parseTag f.tag with
  | error e => simp [mkField, hp] at h
  | ok tagMap =>
    simp only [mkField, hp, hk, if_neg, Except.ok.injEq] at h
    subst h
    exact ⟨rfl, rfl⟩

/-- C5 witness: the string attribute Title maps to column name Title, equal
to its field name. -/
theorem no_transform_column_eq_field_name_witness :
    mkField none ⟨"Title", Kind.string, ""⟩ =
      Except.ok ⟨FieldVariant.text, "Title", "Title", "Title", false⟩ ∧
    ((⟨FieldVariant.text, "Title", "Title", "Title", false⟩ : Field).columnName =
        (⟨FieldVariant.text, "Title", "Title", "Title", false⟩ : Field).name ∧
      (⟨FieldVariant.text, "Title", "Title", "Title", false⟩ : Field).name = "Title") :=
  ⟨rfl, no_transform_column_eq_field_name ⟨"Title", Kind.string, ""⟩
    ⟨FieldVariant.text, "Title", "Title", "Title", false⟩ (by decide) rfl⟩

/-- C6: the field loop produces exactly one Field per non-skipped attribute,
in declaration order: it equals the in-order per-attribute construction
applied to the attribute list with the skip-tagged attributes removed. -/
theorem fields_follow_declaration_order (nt : Option (String → String))
    (attrs : List StructField) :
    buildFields nt attrs = specOrderedFields nt (attrs.filter fun f => f.tag != "-") := by
  induction attrs with
  | nil => rfl
  | cons f rest ih =>
    by_cases hf : f.tag = "-"
    · simp [buildFields, List.filter_cons, hf, ih]
    · simp [buildFields, specOrderedFields, List.filter_cons, hf, ih]

/-- C7: the list-label projection and the list-storage-column projection are
the label and column images of one and the same filtered field list (same
predicate, same order), hence have equal length and are index-aligned. -/
theorem list_projections_index_aligned (m : model) :
    m.listColumns = ((m.fields.filter fun f => f.list).map fun f => f.label) ∧
    m.listTableColumns =
      ((m.fields.filter fun f => f.list).map fun f => f.columnName) ∧
    m.listColumns.length = m.listTableColumns.length := by
  refine ⟨listColsAux_eq m.fields, listTableColsAux_eq m.fields, ?_⟩
  rw [model.listColumns, model.listTableColumns, listColsAux_eq, listTableColsAux_eq]
  simp

/-- C8 counterexample: with a two-field model, an empty value set and the
one-element error set, renderForm fails (the out-of-range read of the
second error index, a Go panic), refuting that a length-mismatched value
set renders for every accompanying validation-error set. -/
theorem renderForm_short_error_list_cex :
    (⟨"M", "m", [⟨FieldVariant.text, "A", "A", "A", false⟩,
        ⟨FieldVariant.text, "B", "B", "B", false⟩], "M"⟩ :
      model).renderForm ([] : List String) (some ["e"]) = none := rfl

/-- C8 (amended): when the value set's length differs from the field count,
renderForm renders every field with no pre-filled value, provided the
validation-error set is nil or covers at least the field count; a non-nil
error set shorter than the field count makes the indexed read fail
instead. -/
theorem renderForm_mismatch_renders_empty {α : Type} (m : model) (data : List α)
    (errs : Option (List String))
    (hlen : data.length ≠ (m.fieldNames).length)
    (herr : errs = none ∨ ∃ l, errs = some l ∧ (m.fieldNames).length ≤ l.length) :
    ∃ r, m.renderForm data errs = some r ∧
      r.length = (m.fieldNames).length ∧ ∀ x ∈ r, x.value = none := by
  have hbeq : (data.length == (m.fieldNames).length) = false :=
    beq_eq_false_iff_ne.mpr hlen
  unfold model.renderForm
  rw [hbeq]
  exact renderFormAux_no_data data errs m.fields (m.fieldNames) 0
    (fun n hn => fieldByNameAux_isSome_of_mem m.fields n hn)
    (by rcases herr with h | ⟨l, hl, hle⟩
        · exact Or.inl h
        · exact Or.inr ⟨l, hl, by simpa using hle⟩)

/-- C8 witness: the two-field model with an empty value set and a nil error
set renders both fields valueless. -/
theorem renderForm_mismatch_renders_empty_witness :
    ∃ r, (⟨"M", "m", [⟨FieldVariant.text, "A", "A", "A", false⟩,
        ⟨FieldVariant.text, "B", "B", "B", false⟩], "M"⟩ :
        model).renderForm ([] : List String) none = some r ∧
      r.length = ((⟨"M", "m", [⟨FieldVariant.text, "A", "A", "A", false⟩,
        ⟨FieldVariant.text, "B", "B", "B", false⟩], "M"⟩ :
          model).fieldNames).length ∧
      ∀ x ∈ r, x.value = none :=
  renderForm_mismatch_renders_empty
    (⟨"M", "m", [⟨FieldVariant.text, "A", "A", "A", false⟩,
       ⟨FieldVariant.text, "B", "B", "B", false⟩], "M"⟩ : model)
    ([] : List String) none (by decide) (Or.inl rfl)

/-- C9: when a second registration derives the same slug, both registrations
succeed, both models are appended to the invoking group's list, and the
registry's slug map holds the second model under the shared slug: silent
last-write-wins overwrite, no error. -/
theorem slug_collision_last_write_wins (a : Admin) (g : modelGroup)
    (t₁ t₂ : GoType) (ms : List (String × model)) (m₁ m₂ : model)
    (hm : a.models = some ms)
    (h1 : mkModel a.NameTransform t₁ = Except.ok m₁)
    (h2 : mkModel a.NameTransform t₂ = Except.ok m₂)
    (hs : m₂.Slug = m₁.Slug) :
    ∃ a₁ g₁ a₂ g₂,
      RegisterModel a g t₁ = Except.ok (a₁, g₁) ∧
      RegisterModel a₁ g₁ t₂ = Except.ok (a₂, g₂) ∧
      a₂.models = some (mapInsert (mapInsert ms m₁.Slug m₁) m₁.Slug m₂) ∧
      mapLookup (mapInsert (mapInsert ms m₁.Slug m₁) m₁.Slug m₂) m₁.Slug = some m₂ ∧
      g₂.Models = g.Models ++ [m₁, m₂] := by
  refine ⟨{ a with models := some (mapInsert ms m₁.Slug m₁) },
    { g with Models := g.Models ++ [m₁] },
    { a with models := some (mapInsert (mapInsert ms m₁.Slug m₁) m₁.Slug m₂) },
    { g with Models := (g.Models ++ [m₁]) ++ [m₂] }, ?_, ?_, ?_, ?_, ?_⟩
  · simp [RegisterModel, h1, hm]
  · simp [RegisterModel, h2, hs]
  · rfl
  · exact mapLookup_mapInsert (mapInsert ms m₁.Slug m₁) m₁.Slug m₂
  · simp

/-- C9 witness: registering main.Post and then blog.Post (both slug "post")
succeeds twice, appends both models to the group and leaves the second one
in the slug map. -/
theorem slug_collision_last_write_wins_witness :
    ∃ a₁ g₁ a₂ g₂,
      RegisterModel ⟨"t", "u", "p", none, some [], []⟩ ⟨"g", "g", []⟩
        ⟨"*a.Post", [], none⟩ = Except.ok (a₁, g₁) ∧
      RegisterModel a₁ g₁ ⟨"*b.Post", [], none⟩ = Except.ok (a₂, g₂) ∧
      a₂.models = some (mapInsert (mapInsert [] "post" ⟨"Post", "post", [], "Post"⟩)
        "post" ⟨"Post", "post", [], "Post"⟩) ∧
      mapLookup (mapInsert (mapInsert [] "post" ⟨"Post", "post", [], "Post"⟩)
        "post" ⟨"Post", "post", [], "Post"⟩) "post" =
        some ⟨"Post", "post", [], "Post"⟩ ∧
      g₂.Models = (⟨"g", "g", []⟩ : modelGroup).Models ++
        [⟨"Post", "post", [], "Post"⟩, ⟨"Post", "post", [], "Post"⟩] :=
  slug_collision_last_write_wins ⟨"t", "u", "p", none, some [], []⟩ ⟨"g", "g", []⟩
    ⟨"*a.Post", [], none⟩ ⟨"*b.Post", [], none⟩ []
    ⟨"Post", "post", [], "Post"⟩ ⟨"Post", "post", [], "Post"⟩ rfl rfl rfl rfl

/-- C10: while the registry's model map is still nil (before Setup
initialized it), Group returns the error and an untouched registry and no
group; whenever the map is initialized (as Setup leaves it) Group succeeds
and appends the new group; and Setup does initialize the map. -/
theorem group_requires_initialized_registry (a b a₀ a' : Admin) (n : String)
    (ms : List (String × model))
    (hnil : a.models = none) (hsome : b.models = some ms)
    (hsetup : Setup a₀ = Except.ok a') :
    a.Group n =
      (a, Except.error "Must call .Serve() before adding groups and registering models") ∧
    b.Group n = ({ b with modelGroups := b.modelGroups ++ [⟨n, slugAscii n, []⟩] },
      Except.ok ⟨n, slugAscii n, []⟩) ∧
    a'.models = some [] := by
  refine ⟨?_, ?_, ?_⟩
  · simp [Admin.Group, hnil]
  · simp [Admin.Group, hsome]
  · simp only [Setup] at hsetup
    by_cases hc :
        ((if a₀.Title.length == 0 then { a₀ with Title := "Admin" } else a₀).Username.length == 0 ||
          (if a₀.Title.length == 0 then { a₀ with Title := "Admin" } else a₀).Password.length == 0) = true
    · rw [if_pos hc] at hsetup
      cases hsetup
    · rw [if_neg hc] at hsetup
      simp only [Except.ok.injEq] at hsetup
      rw [← hsetup]

/-- C10 witness: a nil-map registry rejects Group, a post-Setup registry
accepts it and appends the group, and a concrete Setup run initializes the
map. -/
theorem group_requires_initialized_registry_witness :
    (⟨"", "u", "p", none, none, []⟩ : Admin).Group "blog" =
      (⟨"", "u", "p", none, none, []⟩,
        Except.error "Must call .Serve() before adding groups and registering models") ∧
    (⟨"t", "u", "p", none, some [], []⟩ : Admin).Group "blog" =
      (⟨"t", "u", "p", none, some [], [⟨"blog", "blog", []⟩]⟩,
        Except.ok ⟨"blog", "blog", []⟩) ∧
    (⟨"Admin", "user", "pass", none, some [], []⟩ : Admin).models = some [] :=
  group_requires_initialized_registry ⟨"", "u", "p", none, none, []⟩
    ⟨"t", "u", "p", none, some [], []⟩ ⟨"", "user", "pass", none, none, []⟩
    ⟨"Admin", "user", "pass", none, some [], []⟩ "blog" [] rfl rfl rfl

end GoAdmin
